import Mathlib

/-!
Shallow embedding of `src/src/requests/request.js`: the HTTP request
configuration and authentication-resolution layer (Headers, Auth,
RequestConfig, KinveyRequestConfig, Request, KinveyRequest).

JavaScript values that can appear as header values, properties objects and
query payloads are modelled by the JSON-like inductive `JVal` (JavaScript
functions/symbols are outside the model).  JavaScript exceptions are
modelled with `Except JsError`; accessing a property of `undefined` and
calling a method that does not exist on a class are modelled by
`JsError.typeError`, and exhaustion of the call stack by
`JsError.stackOverflow`.
-/

/-- JSON-like JavaScript values (header values, properties, bodies). -/
inductive JVal : Type
  | null : JVal
  | bool : Bool → JVal
  | num : Int → JVal
  | str : String → JVal
  | arr : List JVal → JVal
  | obj : List (String × JVal) → JVal

/-- JavaScript truthiness of a `JVal` (`undefined` is handled separately via
`Option JVal`). -/
def JVal.truthy : JVal → Bool
  | .null => false
  | .bool b => b
  | .num n => n != 0
  | .str s => s != ""
  | .arr _ => true
  | .obj _ => true

/-- Truthiness of a possibly-undefined value. -/
def jsTruthyO : Option JVal → Bool
  | none => false
  | some v => v.truthy

/-- Truthiness of a possibly-undefined string (`undefined` and `""` are
falsy). -/
def strTruthy : Option String → Bool
  | none => false
  | some s => s != ""

/-- Decimal digit accumulator for printing naturals (explicit fuel keeps the
recursion structural). -/
def natStrAux : Nat → Nat → List Char → List Char
  | 0, _, acc => acc
  | f + 1, n, acc =>
    let acc := Char.ofNat (48 + n % 10) :: acc
    if n < 10 then acc else natStrAux f (n / 10) acc

/-- Decimal rendering of a natural number. -/
def natStr (n : Nat) : String := ⟨natStrAux (n + 1) n []⟩

/-- Decimal rendering of an integer (JavaScript number-to-string for the
integral numbers in the model). -/
def intToString : Int → String
  | .ofNat n => natStr n
  | .negSucc n => "-" ++ natStr (n + 1)

/-- JSON escaping of one character, as performed by `JSON.stringify`. -/
def escapeJsonChar (c : Char) : String :=
  if c = '"' then "\\\""
  else if c = '\\' then "\\\\"
  else if c = Char.ofNat 10 then "\\n"
  else if c = Char.ofNat 13 then "\\r"
  else if c = Char.ofNat 9 then "\\t"
  else String.mk [c]

/-- JSON escaping of a string body. -/
def escapeJson (s : String) : String :=
  s.data.foldl (fun acc c => acc ++ escapeJsonChar c) ""

mutual
/-- Model of `JSON.stringify` on the JSON-like values of the model. -/
def jsonStringify : JVal → String
  | .null => "null"
  | .bool true => "true"
  | .bool false => "false"
  | .num n => intToString n
  | .str s => "\"" ++ escapeJson s ++ "\""
  | .arr xs => "[" ++ jsonStringifyArr xs ++ "]"
  | .obj ps => "\x7b" ++ jsonStringifyObj ps ++ "\x7d"

/-- Comma-separated serialization of an array body. -/
def jsonStringifyArr : List JVal → String
  | [] => ""
  | [x] => jsonStringify x
  | x :: xs => jsonStringify x ++ "," ++ jsonStringifyArr xs

/-- Comma-separated serialization of an object body. -/
def jsonStringifyObj : List (String × JVal) → String
  | [] => ""
  | [(k, v)] => "\"" ++ escapeJson k ++ "\":" ++ jsonStringify v
  | (k, v) :: ps =>
      "\"" ++ escapeJson k ++ "\":" ++ jsonStringify v ++ "," ++ jsonStringifyObj ps
end

/-- JavaScript string coercion (template literals, `String(x)`). -/
def jsToString : JVal → String
  | .null => "null"
  | .bool true => "true"
  | .bool false => "false"
  | .num n => intToString n
  | .str s => s
  | .arr _ => ""
  | .obj _ => "[object Object]"

/-- String coercion of a possibly-undefined value. -/
def jsToStringO : Option JVal → String
  | none => "undefined"
  | some v => jsToString v

/-- String coercion of a possibly-undefined string. -/
def strToStringO : Option String → String
  | none => "undefined"
  | some s => s

/-- Model of `String.prototype.toLowerCase` by character-wise lowering. -/
def jsToLower (s : String) : String := ⟨s.data.map Char.toLower⟩

/-- Model of `String.prototype.toUpperCase` by character-wise raising. -/
def jsToUpper (s : String) : String := ⟨s.data.map Char.toUpper⟩

/-- Model of `String.prototype.trim`: strip leading and trailing
whitespace. -/
def jsTrim (s : String) : String :=
  ⟨((s.data.dropWhile Char.isWhitespace).reverse.dropWhile Char.isWhitespace).reverse⟩

/-- Character membership in a string. -/
def strHasChar (s : String) (c : Char) : Bool := s.data.contains c

/-- JavaScript exceptions thrown by the embedded code. -/
inductive JsError : Type
  /-- A plain `Error` with a message. -/
  | err : String → JsError
  /-- The `NoActiveUserError` class from `../errors`. -/
  | noActiveUser : String → JsError
  /-- A `TypeError`: property access on `undefined`, or invoking a method
  that is not defined on the receiver. -/
  | typeError : JsError
  /-- A `RangeError` from exhausting the call stack. -/
  | stackOverflow : JsError
deriving Repr, DecidableEq

/-- Boolean success test on `Except`. -/
def isOkB {ε α : Type} : Except ε α → Bool
  | .ok _ => true
  | .error _ => false

/-- JavaScript object assignment `o[k] = v` on a string-keyed object modelled
as an insertion-ordered association list: an existing key keeps its position,
a new key is appended. -/
def objSet (l : List (String × String)) (k v : String) : List (String × String) :=
  if l.any (fun p => p.1 = k) then
    l.map (fun p => if p.1 = k then (k, v) else p)
  else
    l ++ [(k, v)]

/-- JavaScript `delete o[k]`: removes exactly the given key. -/
def objDelete (l : List (String × String)) (k : String) : List (String × String) :=
  l.filter (fun p => p.1 ≠ k)

/-- The `Headers` class: its single data property `headers` is a plain
string-keyed object (insertion-ordered). -/
structure Headers : Type where
  headers : List (String × String)
deriving Repr, DecidableEq

/-- A fresh `Headers` whose `headers` object is empty (the state produced by
`new Headers()`; the default argument makes no `setHeader` call). -/
def Headers.empty : Headers := ⟨[]⟩

/-- `Headers.get(name)`: case-insensitive scan of the stored keys in
insertion order, returning the first match or undefined. -/
def Headers.get (h : Headers) (name : String) : Option String :=
  if name = "" then none
  else
    (h.headers.find? (fun p => jsToLower p.1 == jsToLower name)).map (fun p => p.2)

/-- The string actually stored by `Headers.set` for a value: strings are
stored verbatim, everything else is serialized with `JSON.stringify`. -/
def Headers.storedOf : JVal → String
  | .str s => s
  | v => jsonStringify v

/-- `Headers.set(name, value)`: throws when name or value is falsy, stores
the (serialized) value under the exact given name in the plain object. -/
def Headers.set (h : Headers) (name : String) (value : JVal) : Except JsError Headers :=
  if name = "" ∨ value.truthy = false then
    .error (.err "A name and value must be provided to set a header.")
  else
    .ok ⟨objSet h.headers name (Headers.storedOf value)⟩

/-- `Headers.has(name)`: the double-negated truthiness of `get`. -/
def Headers.has (h : Headers) (name : String) : Bool :=
  match h.get name with
  | some s => s != ""
  | none => false

/-- `Headers.remove(name)`: `delete headers[name]` — removes exactly the
given key (no case folding). -/
def Headers.remove (h : Headers) (name : String) : Headers :=
  if name = "" then h else ⟨objDelete h.headers name⟩

/-- `Headers.clear()`. -/
def Headers.clear (_ : Headers) : Headers := ⟨[]⟩

/-- The lodash `isPlainObject` test restricted to the value model. -/
def isPlainObjectV : JVal → Bool
  | .obj _ => true
  | _ => false

/-- `Headers.addAll(headers)`: throws unless the argument is a plain object;
it then iterates the argument's keys calling `this.setHeader(name, value)`.
The class defines `set` but no `setHeader`, so the first iteration throws a
`TypeError`; only an empty argument object completes. -/
def Headers.addAll (h : Headers) (arg : JVal) : Except JsError Headers :=
  if isPlainObjectV arg = false then
    .error (.err "Headers argument must be an object.")
  else
    match arg with
    | .obj [] => .ok h
    | _ => .error .typeError

/-- UTF-8 encoding of one character as a list of byte values. -/
def charUtf8Bytes (c : Char) : List Nat :=
  let n := c.toNat
  if n < 128 then [n]
  else if n < 2048 then [192 + n / 64, 128 + n % 64]
  else if n < 65536 then [224 + n / 4096, 128 + (n / 64) % 64, 128 + n % 64]
  else [240 + n / 262144, 128 + (n / 4096) % 64, 128 + (n / 64) % 64, 128 + n % 64]

/-- UTF-8 encoding of a string as a list of byte values. -/
def strUtf8 (s : String) : List Nat :=
  s.data.foldr (fun c acc => charUtf8Bytes c ++ acc) []

/-- Modelled from the spec: `byteCount` from `../utils/string` (the module is
not in the sources) — the UTF-8 encoded byte count of a string, "using its
encoded byte count, not character count". -/
def byteCount (s : String) : Nat := (strUtf8 s).length

/-- The base64 digit alphabet. -/
def b64Digit (n : Nat) : Char :=
  "ABCDEFGHIJKLMNOPQRSTUVWXYZabcdefghijklmnopqrstuvwxyz0123456789+/".data.getD n 'A'

/-- Base64 encoding of a byte list, three bytes at a time with `=` padding. -/
def b64Bytes : List Nat → String
  | a :: b :: c :: rest =>
      String.mk [b64Digit (a / 4), b64Digit (a % 4 * 16 + b / 16),
                 b64Digit (b % 16 * 4 + c / 64), b64Digit (c % 64)] ++ b64Bytes rest
  | [a, b] =>
      String.mk [b64Digit (a / 4), b64Digit (a % 4 * 16 + b / 16),
                 b64Digit (b % 16 * 4), '=']
  | [a] =>
      String.mk [b64Digit (a / 4), b64Digit (a % 4 * 16), '=', '=']
  | [] => ""

/-- Model of `new Buffer(s).toString('base64')`. -/
def base64encode (s : String) : String := b64Bytes (strUtf8 s)

/-- The `_kmd` metadata block of an active user (`kmdAttribute` defaults to
the string `_kmd`); its `authtoken` field may be undefined. -/
structure Kmd : Type where
  authtoken : Option String
deriving Repr, DecidableEq

/-- An active user record; `kmd` models the `_kmd` property, which may be
undefined. -/
structure ActiveUser : Type where
  kmd : Option Kmd
deriving Repr, DecidableEq

/-- The client credential context read by the `Auth` strategies.  Every field
may be undefined; an empty string is falsy like undefined. -/
structure Client : Type where
  appKey : Option String
  appSecret : Option String
  masterSecret : Option String
  activeUser : Option ActiveUser
deriving Repr, DecidableEq

/-- The record returned by a successful `Auth` strategy: `scheme` plus either
verbatim `credentials` or a `username`/`password` pair. -/
structure AuthInfo : Type where
  scheme : String
  credentials : Option String
  username : Option String
  password : Option String
deriving Repr, DecidableEq

/-- `Auth.app`: requires truthy `appKey` and `appSecret`; Basic scheme with
those as username/password.  An undefined client makes the property access
throw a `TypeError`. -/
def Auth.app : Option Client → Except JsError AuthInfo
  | none => .error .typeError
  | some c =>
    if strTruthy c.appKey = false ∨ strTruthy c.appSecret = false then
      .error (.err "Missing client credentials")
    else
      .ok ⟨"Basic", none, c.appKey, c.appSecret⟩

/-- `Auth.master`: requires truthy `appKey` and `masterSecret`; Basic scheme
with those as username/password. -/
def Auth.master : Option Client → Except JsError AuthInfo
  | none => .error .typeError
  | some c =>
    if strTruthy c.appKey = false ∨ strTruthy c.masterSecret = false then
      .error (.err "Missing client credentials")
    else
      .ok ⟨"Basic", none, c.appKey, c.masterSecret⟩

/-- `Auth.basic`: tries `master`, on any thrown error falls back to `app`. -/
def Auth.basic (c : Option Client) : Except JsError AuthInfo :=
  match Auth.master c with
  | .ok v => .ok v
  | .error _ => Auth.app c

/-- `Auth.session`: requires a truthy active user; returns the Kinvey scheme
carrying `activeUser._kmd.authtoken` as credentials.  A missing `_kmd` block
makes the `authtoken` access throw a `TypeError`. -/
def Auth.session : Option Client → Except JsError AuthInfo
  | none => .error .typeError
  | some c =>
    match c.activeUser with
    | none =>
      .error (.noActiveUser
        "There is not an active user. Please login a user and retry the request.")
    | some u =>
      match u.kmd with
      | none => .error .typeError
      | some k => .ok ⟨"Kinvey", k.authtoken, none, none⟩

/-- `Auth.all`: tries `session`, on any thrown error falls back to `basic`. -/
def Auth.all (c : Option Client) : Except JsError AuthInfo :=
  match Auth.session c with
  | .ok v => .ok v
  | .error _ => Auth.basic c

/-- The default branch of the `authorizationHeader` switch: tries `session`;
on failure tries `master`; if the fallback also fails it rethrows the
original session error. -/
def defaultAuth (c : Option Client) : Except JsError AuthInfo :=
  match Auth.session c with
  | .ok v => .ok v
  | .error e =>
    match Auth.master c with
    | .ok v => .ok v
    | .error _ => .error e

/-- Environment fallback `KINVEY_DEFAULT_TIMEOUT || 30`, modelled as its
fixed fallback constant. -/
def defaultTimeout : Int := 30

/-- Environment fallback `KINVEY_DEFAULT_API_VERSION || 4`. -/
def defaultApiVersion : Int := 4

/-- Environment fallback `KINVEY_MAX_HEADER_BYTES || 2000`. -/
def customPropertiesMaxBytesAllowed : Nat := 2000

/-- Characters left unescaped by `encodeURIComponent` (the `qs` default
encoder): ASCII alphanumerics and `-_.!~*'()`. -/
def uriUnreservedChar (c : Char) : Bool :=
  c.isAlphanum || c = '-' || c = '_' || c = '.' || c = '!' || c = '~' ||
  c = '*' || c = Char.ofNat 39 || c = '(' || c = ')'

/-- Upper-case hexadecimal digit. -/
def hexDigit (n : Nat) : Char := "0123456789ABCDEF".data.getD n '0'

/-- Percent-encoding of one byte. -/
def pctByte (b : Nat) : String := String.mk ['%', hexDigit (b / 16), hexDigit (b % 16)]

/-- Percent-encoding of a string per `encodeURIComponent` (UTF-8 bytes of
every reserved character are escaped). -/
def uriEncode (s : String) : String :=
  s.data.foldl
    (fun acc c =>
      acc ++ (if uriUnreservedChar c then String.mk [c]
              else String.join ((charUtf8Bytes c).map pctByte)))
    ""

/-- Strings joined with a separator. -/
def sepJoin (sep : String) : List String → String
  | [] => ""
  | [x] => x
  | x :: xs => x ++ sep ++ sepJoin sep xs

/-- Model of `qs.stringify` on a flat string-valued object: percent-encoded
`key=value` pairs joined by ampersands. -/
def qsStringify (ps : List (String × String)) : String :=
  sepJoin "&" (ps.map (fun p => uriEncode p.1 ++ "=" ++ uriEncode p.2))

/-- Model of the `append-query` package: append a query string after `?`, or
after `&` when the URL already carries a query. -/
def appendQuery (u q : String) : String :=
  if strHasChar u '?' then u ++ "&" ++ q else u ++ "?" ++ q

/-- The `RequestConfig` class state: the backing data properties written by
its accessors. -/
structure RequestConfig : Type where
  configMethod : String
  configHeaders : Headers
  configUrl : String
  configBody : Option JVal
  configTimeout : Int
  configFollowRedirect : Bool
  configNoCache : Bool

/-- The `method` setter: upper-cases the string and accepts only the five
request methods, throwing otherwise. -/
def RequestConfig.methodSet (c : RequestConfig) (m : String) : Except JsError RequestConfig :=
  let m := jsToUpper m
  if m = "GET" ∨ m = "POST" ∨ m = "PATCH" ∨ m = "PUT" ∨ m = "DELETE" then
    .ok { c with configMethod := m }
  else
    .error (.err "Invalid request method. Only GET, POST, PATCH, PUT, and DELETE are allowed.")

/-- The `timeout` setter: a non-number silently falls back to the default. -/
def RequestConfig.timeoutSet (c : RequestConfig) (t : Option JVal) : RequestConfig :=
  match t with
  | some (.num n) => { c with configTimeout := n }
  | _ => { c with configTimeout := defaultTimeout }

/-- The base `url` getter: returns the stored URL, with a cache-busting `_`
query parameter appended when `noCache` is set.  The random token produced by
`Math.random().toString(36).substr(2)` is passed in as `rand`; the getter
assigns nothing, so it is a pure function of the state. -/
def RequestConfig.urlGet (c : RequestConfig) (rand : String) : String :=
  if c.configNoCache then
    appendQuery c.configUrl (qsStringify [("_", rand)])
  else
    c.configUrl

/-- The `AuthType` enum. -/
inductive AuthType : Type
  | All | App | Basic | Default | Master | None | Session
deriving Repr, DecidableEq

/-- The `KinveyRequestConfig` class state: the base class state plus the
API-specific data properties.  `query` models the `Query` collaborator, which
is not part of the sources; Modelled from the spec: "an object exposing a
query-string-serialization contract" — a flat list of key/value pairs whose
`toQueryString()` is the object itself. -/
structure KinveyRequestConfig extends RequestConfig where
  authType : Option AuthType
  query : Option (List (String × String))
  configOnline : Bool
  configCacheEnabled : Bool
  configApiVersion : Int
  configProperties : JVal
  configAppVersion : Option String
  client : Option Client
  appKey : Option String
  collection : Option String
  entityId : Option String

/-- The overriding `url` getter: the base getter's result (cache-busting
underneath), then the serialized query object appended unless empty. -/
def KinveyRequestConfig.urlGet (c : KinveyRequestConfig) (rand : String) : String :=
  let urlString := RequestConfig.urlGet c.toRequestConfig rand
  let queryString := c.query.getD []
  if queryString.isEmpty then urlString
  else appendQuery urlString (qsStringify queryString)

/-- The message of the custom-properties size error. -/
def propsTooLargeMsg (n : Nat) : String :=
  "The custom properties are " ++ natStr n ++ " bytes." ++
  "It must be less then " ++ natStr customPropertiesMaxBytesAllowed ++ " bytes."

/-- The overriding `headers` getter of `KinveyRequestConfig`, with a fuel
bound on the JavaScript call stack.  Faithful to the source: it mutates the
embedded `Headers` object (the app-version header), validates the serialized
custom-properties size, and then evaluates `this.headers.set(...)` — but
`this.headers` re-enters this very getter (the instance has no own `headers`
data property), and the getter body ends without a return statement, so a
completed call would return undefined (`none`) and invoking `.set` on that
result would throw a `TypeError`.  The first statement of the getter — set
the app-version header when `this.appVersion` is truthy, remove it
otherwise — is split out as `appVersionStep`. -/
def appVersionStep (av : Option String) (h0 : Headers) : Except JsError Headers :=
  match av with
  | some s =>
    if s != "" then Headers.set h0 "X-Kinvey-Client-App-Version" (.str s)
    else .ok (Headers.remove h0 "X-Kinvey-Client-App-Version")
  | none => .ok (Headers.remove h0 "X-Kinvey-Client-App-Version")

/-- The fuel-indexed evaluation of the `headers` getter (see the comment on
`appVersionStep`). -/
def KinveyRequestConfig.headersGet :
    Nat → KinveyRequestConfig → Except JsError (Option Headers × KinveyRequestConfig)
  | 0, _ => .error .stackOverflow
  | fuel + 1, c =>
    match appVersionStep c.configAppVersion c.configHeaders with
    | .error e => .error e
    | .ok headers1 =>
      let c1 := { c with configHeaders := headers1 }
      let customPropertiesHeader := jsonStringify c.configProperties
      let customPropertiesByteCount := byteCount customPropertiesHeader
      if customPropertiesByteCount ≥ customPropertiesMaxBytesAllowed then
        .error (.err (propsTooLargeMsg customPropertiesByteCount))
      else
        match KinveyRequestConfig.headersGet fuel c1 with
        | .error e => .error e
        | .ok (none, _) => .error .typeError
        | .ok (some h2, c2) =>
          match Headers.set h2 "X-Kinvey-Custom-Request-Properties" (.str customPropertiesHeader) with
          | .error e => .error e
          | .ok h3 => .ok (none, { c2 with configHeaders := h3 })

/-- The `appVersion` setter, verbatim from the source: `version` is
`Array.prototype.slice.call(args, 1)`, `major` is `args[0]`, `minor` is
`version[1]` and `patch` is `version[2]`, and each truthy segment overwrites
(not appends to) the accumulated string. -/
def KinveyRequestConfig.appVersionSet (c : KinveyRequestConfig) (args : List JVal) :
    KinveyRequestConfig :=
  let version := args.drop 1
  let major := args[0]?
  let minor := version[1]?
  let patch := version[2]?
  let appVersion := ""
  let appVersion := if jsTruthyO major then jsTrim (jsToStringO major) else appVersion
  let appVersion := if jsTruthyO minor then jsTrim ("." ++ jsToStringO minor) else appVersion
  let appVersion := if jsTruthyO patch then jsTrim ("." ++ jsToStringO patch) else appVersion
  { c with configAppVersion := some appVersion }

/-- The message of the reentrancy error thrown by `Request.execute`. -/
def reentrancyMsg : String :=
  "Unable to execute the request. The request is already executing."

/-- The `Request` class state: one config plus the `executing` flag. -/
structure Request : Type where
  requestConfig : RequestConfig
  executing : Bool

/-- The `Request` constructor: stores the config and starts idle. -/
def Request.new (cfg : RequestConfig) : Request := ⟨cfg, false⟩

/-- `Request.isExecuting()`. -/
def Request.isExecuting (r : Request) : Bool := r.executing

/-- `Request.execute()`: throws when already executing, otherwise flips the
`executing` flag to true.  Nothing in the class ever assigns it back. -/
def Request.execute (r : Request) : Except JsError Request :=
  if r.isExecuting then .error (.err reentrancyMsg)
  else .ok { r with executing := true }

/-- The mutating operations exposed by the `Request` class (its setters all
delegate to the config object; `cancel` is invoked only by the subclass's
`super.cancel()`, which does not exist on `Request`). -/
inductive RequestOp : Type
  | setConfig (c : RequestConfig)
  | setMethod (m : String)
  | setHeaders (h : Headers)
  | setUrl (u : String)
  | setBody (b : Option JVal)
  | setData (b : Option JVal)
  | execute
  | cancel

/-- One mutating operation applied to a `Request`. -/
def Request.applyOp : RequestOp → Request → Except JsError Request
  | .setConfig c, r => .ok { r with requestConfig := c }
  | .setMethod m, r =>
      (RequestConfig.methodSet r.requestConfig m).map
        (fun cfg => { r with requestConfig := cfg })
  | .setHeaders h, r =>
      .ok { r with requestConfig := { r.requestConfig with configHeaders := h } }
  | .setUrl u, r =>
      .ok { r with requestConfig := { r.requestConfig with configUrl := u } }
  | .setBody b, r =>
      .ok { r with requestConfig := { r.requestConfig with configBody := b } }
  | .setData b, r =>
      .ok { r with requestConfig := { r.requestConfig with configBody := b } }
  | .execute, r => Request.execute r
  | .cancel, _ => .error .typeError

/-- The `KinveyRequest` class state. -/
structure KinveyRequest : Type where
  requestConfig : KinveyRequestConfig
  executing : Bool

/-- The value of `this.authType` read inside `KinveyRequest`: neither
`Request` nor `KinveyRequest` ever assigns an `authType` own property (the
auth type lives on the config object as `this.config.authType`), so the
property read yields undefined. -/
def KinveyRequest.authTypeProp (_ : KinveyRequest) : Option AuthType := none

/-- The value of `this.client` read inside `KinveyRequest`: never assigned on
the instance (the client reference lives on the config object), so the read
yields undefined. -/
def KinveyRequest.clientProp (_ : KinveyRequest) : Option Client := none

/-- The `{name, value}` record produced by the `authorizationHeader`
getter. -/
structure AuthHeader : Type where
  name : String
  value : String
deriving Repr, DecidableEq

/-- The `authorizationHeader` getter: switches on `this.authType` (a switch
on undefined matches no case and runs the default cascade) against
`this.client`, then renders the resolved credentials — base64 of
`username:password` when a username was returned, the verbatim credentials
field otherwise. -/
def KinveyRequest.authorizationHeader (r : KinveyRequest) :
    Except JsError (Option AuthHeader) :=
  let authInfoE : Except JsError (Option AuthInfo) :=
    match KinveyRequest.authTypeProp r with
    | some .All => (Auth.all (KinveyRequest.clientProp r)).map some
    | some .App => (Auth.app (KinveyRequest.clientProp r)).map some
    | some .Basic => (Auth.basic (KinveyRequest.clientProp r)).map some
    | some .Master => (Auth.master (KinveyRequest.clientProp r)).map some
    | some .None => .ok Option.none
    | some .Session => (Auth.session (KinveyRequest.clientProp r)).map some
    | some .Default => (defaultAuth (KinveyRequest.clientProp r)).map some
    | none => (defaultAuth (KinveyRequest.clientProp r)).map some
  match authInfoE with
  | .error e => .error e
  | .ok none => .ok none
  | .ok (some info) =>
    let credentials : Option String :=
      if strTruthy info.username then
        some (base64encode (strToStringO info.username ++ ":" ++ strToStringO info.password))
      else info.credentials
    .ok (some ⟨"Authorization", info.scheme ++ " " ++ strToStringO credentials⟩)

/-- `KinveyRequest.execute()`: evaluates the `authorizationHeader` getter;
if a header record was produced it calls `this.addHeader(...)`, a method that
exists on neither `KinveyRequest` nor `Request` (a `TypeError`); otherwise it
delegates to the base `execute`. -/
def KinveyRequest.execute (r : KinveyRequest) : Except JsError KinveyRequest :=
  match KinveyRequest.authorizationHeader r with
  | .error e => .error e
  | .ok (some _) => .error .typeError
  | .ok none =>
    if r.executing then .error (.err reentrancyMsg)
    else .ok { r with executing := true }

/-- A base config as the `RequestConfig` constructor would leave it for a
GET of `https://x/y` (headers elided to the empty map for the URL/lifecycle
claims, which never read them). -/
def sampleBase : RequestConfig := ⟨"GET", Headers.empty, "https://x/y", none, 30, true, false⟩

/-- A client holding full credentials and no active user. -/
def sampleClient : Client := ⟨some "key", some "secret", some "master", none⟩

/-- A `KinveyRequestConfig` with App auth type, a one-entry query object and
empty custom properties. -/
def sampleKCfg : KinveyRequestConfig :=
  { toRequestConfig := sampleBase
    authType := some .App
    query := some [("a", "1")]
    configOnline := true
    configCacheEnabled := true
    configApiVersion := 4
    configProperties := .obj []
    configAppVersion := none
    client := some sampleClient
    appKey := none
    collection := none
    entityId := none }

/-- C1: the spec says `ApiRequest.execute()` resolves the authorization
header from the configured `authType` and the config's client, merges it
into the config's headers, and delegates to the base `execute()`.  The code
instead reads `this.authType` and `this.client`, which are never assigned on
the request instance (they live on the config), so even for a request whose
config selects App auth with full credentials the default cascade runs
against an undefined client and `execute()` throws a `TypeError`; the merge
step `this.addHeader(...)` would itself throw, as no such method exists. -/
theorem c1_kinveyRequest_execute_typeError :
    KinveyRequest.execute ⟨sampleKCfg, false⟩ = .error .typeError := rfl

/-- C2: in the default (unspecified auth type) cascade, `session` is tried
first and `master` second; when both fail the surfaced error is the original
session failure, and when `master` succeeds after `session` fails the master
credentials are returned. -/
theorem c2_default_auth_cascade (c : Option Client) (e : JsError)
    (hs : Auth.session c = .error e) :
    (∀ e2, Auth.master c = .error e2 → defaultAuth c = .error e) ∧
    (∀ v, Auth.master c = .ok v → defaultAuth c = .ok v) := by
  constructor
  · intro e2 hm
    simp [defaultAuth, hs, hm]
  · intro v hm
    simp [defaultAuth, hs, hm]

/-- A client with master credentials and no active user. -/
def clientMasterOnly : Client := ⟨some "key", none, some "master", none⟩

/-- A client with neither credentials nor an active user. -/
def clientNoCreds : Client := ⟨some "key", none, none, none⟩

/-- The message of the `NoActiveUserError`. -/
def noActiveUserMsg : String :=
  "There is not an active user. Please login a user and retry the request."

/-- Witness for C2: with master credentials only, the cascade returns the
master pair; with no credentials at all, it surfaces the session error, not
the master error. -/
theorem c2_default_auth_cascade_witness :
    defaultAuth (some clientMasterOnly) =
      .ok ⟨"Basic", none, some "key", some "master"⟩ ∧
    defaultAuth (some clientNoCreds) = .error (.noActiveUser noActiveUserMsg) := by
  constructor
  · exact (c2_default_auth_cascade (some clientMasterOnly)
      (.noActiveUser noActiveUserMsg) rfl).2 _ rfl
  · exact (c2_default_auth_cascade (some clientNoCreds)
      (.noActiveUser noActiveUserMsg) rfl).1 (.err "Missing client credentials") rfl

/-- C4: the spec says `addAll(object)` rejects non-plain-object arguments and
applies `set` per entry.  The rejection holds, but the per-entry loop calls
`this.setHeader(name, value)` — the class renamed that method to `set` — so
any non-empty plain object makes `addAll` throw a `TypeError` instead of
storing the entries. -/
theorem c4_addAll_setHeader_missing :
    Headers.addAll Headers.empty (.obj [("foo", .str "bar")]) = .error .typeError ∧
    Headers.addAll Headers.empty (.str "nope") =
      .error (.err "Headers argument must be an object.") :=
  ⟨rfl, rfl⟩

/-- C6: the spec says setting `appVersion` from segments `(1, 2, 3)` yields
`"1.2.3"` and from `(1)` yields `"1"`.  The setter reads `minor`/`patch`
from the wrong indices and each truthy segment overwrites the accumulator
instead of appending, so `(1, 2, 3)` actually stores `".3"`; only the
single-segment case agrees with the documentation. -/
theorem c6_appVersion_setter_bug :
    (KinveyRequestConfig.appVersionSet sampleKCfg
        [.num 1, .num 2, .num 3]).configAppVersion = some ".3" ∧
    (KinveyRequestConfig.appVersionSet sampleKCfg
        [.num 1, .num 2, .num 3]).configAppVersion ≠ some "1.2.3" ∧
    (KinveyRequestConfig.appVersionSet sampleKCfg [.num 1]).configAppVersion = some "1" := by
  refine ⟨by decide, by decide, by decide⟩

/-- `Headers.set` with a nonempty name and truthy value succeeds and stores
the serialized value. -/
theorem headersSetOk (h0 : Headers) (k : String) (v : JVal)
    (hk : ¬k = "") (hv : v.truthy = true) :
    Headers.set h0 k v = .ok ⟨objSet h0.headers k (Headers.storedOf v)⟩ := by
  have hg : ¬(k = "" ∨ v.truthy = false) := by
    rintro (h | h)
    · exact hk h
    · simp [hv] at h
  unfold Headers.set
  rw [if_neg hg]

/-- The app-version step of the `headers` getter never throws. -/
theorem appVersionStep_ok (av : Option String) (h0 : Headers) :
    ∃ h1, appVersionStep av h0 = .ok h1 := by
  cases av with
  | none => exact ⟨_, rfl⟩
  | some s =>
    by_cases hs : s = ""
    · subst hs; exact ⟨_, rfl⟩
    · have ht : (s != "") = true := by simp [hs]
      refine ⟨⟨objSet h0.headers "X-Kinvey-Client-App-Version" s⟩, ?_⟩
      simp only [appVersionStep, ht, if_true]
      exact headersSetOk h0 _ (.str s) (by decide) (by simpa [JVal.truthy] using ht)

/-- The `headers` getter never produces a value: every evaluation, at any
stack depth, ends in a thrown error. -/
theorem headersGet_not_ok (fuel : Nat) (c : KinveyRequestConfig) :
    isOkB (KinveyRequestConfig.headersGet fuel c) = false := by
  induction fuel generalizing c with
  | zero => rfl
  | succ n ih =>
    obtain ⟨h1, hav⟩ := appVersionStep_ok c.configAppVersion c.configHeaders
    unfold KinveyRequestConfig.headersGet
    rw [hav]
    by_cases hsz :
        byteCount (jsonStringify c.configProperties) ≥ customPropertiesMaxBytesAllowed
    · simp [hsz, isOkB]
    · simp only [if_neg hsz]
      cases hrec : KinveyRequestConfig.headersGet n { c with configHeaders := h1 } with
      | error e => simp [isOkB]
      | ok pr =>
        have hih := ih { c with configHeaders := h1 }
        rw [hrec] at hih
        simp [isOkB] at hih

/-- C5: the spec says reading `headers` recomputes the derived app-version
and custom-properties headers and returns the map.  The getter does perform
those mutations, but its final statement `this.headers.set(...)` re-enters
the getter itself (the instance has no own `headers` data property) and the
body has no return statement, so no read ever yields a header map: every
read throws — for the sample config, a stack overflow. -/
theorem c5_headers_getter_never_returns :
    (∀ (fuel : Nat) (c : KinveyRequestConfig),
      isOkB (KinveyRequestConfig.headersGet fuel c) = false) ∧
    KinveyRequestConfig.headersGet 3 sampleKCfg = .error .stackOverflow :=
  ⟨headersGet_not_ok, rfl⟩

/-- C7: when the JSON-serialized custom properties reach the byte cap the
`headers` read fails with the size error (never truncating); but the claim's
other half — that a read one byte under the cap succeeds — is false, because
the getter then falls into its self-recursion and overflows the stack
instead of returning. -/
theorem c7_properties_byte_cap (fuel : Nat) (c c2 : KinveyRequestConfig)
    (hge : byteCount (jsonStringify c.configProperties) ≥ customPropertiesMaxBytesAllowed)
    (_hlt : byteCount (jsonStringify c2.configProperties) + 1 = customPropertiesMaxBytesAllowed) :
    KinveyRequestConfig.headersGet (fuel + 1) c =
      .error (.err (propsTooLargeMsg (byteCount (jsonStringify c.configProperties)))) ∧
    isOkB (KinveyRequestConfig.headersGet fuel c2) = false := by
  constructor
  · obtain ⟨h1, hav⟩ := appVersionStep_ok c.configAppVersion c.configHeaders
    unfold KinveyRequestConfig.headersGet
    rw [hav]
    simp [hge]
  · exact headersGet_not_ok fuel c2

/-- A 4-byte UTF-8 character used to build size-calibrated properties. -/
def bigChar : Char := Char.ofNat 66376

/-- Custom properties whose JSON form is 2003 bytes — over the 2000 cap. -/
def overCapProps : JVal := .obj [("kaaa", .str (String.mk (List.replicate 498 bigChar)))]

/-- Custom properties whose JSON form is 1999 bytes — one byte under the
cap. -/
def underCapProps : JVal := .obj [("kaaa", .str (String.mk (List.replicate 497 bigChar)))]

/-- The sample config with over-cap properties. -/
def overCapCfg : KinveyRequestConfig := { sampleKCfg with configProperties := overCapProps }

/-- The sample config with properties one byte under the cap. -/
def underCapCfg : KinveyRequestConfig := { sampleKCfg with configProperties := underCapProps }

/-- Byte counting distributes over list concatenation of the character
data. -/
theorem byteCount_mk_append (l1 l2 : List Char) :
    byteCount ⟨l1 ++ l2⟩ = byteCount ⟨l1⟩ + byteCount ⟨l2⟩ := by
  induction l1 with
  | nil => simp [byteCount, strUtf8]
  | cons c t ih =>
    simp only [byteCount, strUtf8, List.cons_append, List.foldr_cons,
      List.length_append] at ih ⊢
    omega

/-- Byte counting distributes over string append. -/
theorem byteCount_append (a b : String) :
    byteCount (a ++ b) = byteCount a + byteCount b :=
  byteCount_mk_append a.data b.data

/-- The byte count of a replicated character. -/
theorem byteCount_replicate (n : Nat) (c : Char) :
    byteCount ⟨List.replicate n c⟩ = n * (charUtf8Bytes c).length := by
  induction n with
  | zero => simp [byteCount, strUtf8]
  | succ m ih =>
    have : (List.replicate (m + 1) c) = c :: List.replicate m c := rfl
    rw [this, show (⟨c :: List.replicate m c⟩ : String) =
      (⟨[c]⟩ : String) ++ ⟨List.replicate m c⟩ from rfl, byteCount_append, ih]
    have hc : byteCount ⟨[c]⟩ = (charUtf8Bytes c).length := by
      simp [byteCount, strUtf8]
    rw [hc]
    ring

/-- Folding the JSON escape over a suffix, accumulator generalized. -/
theorem escapeJson_foldl (l : List Char) (a : String) :
    List.foldl (fun acc c => acc ++ escapeJsonChar c) a l =
      a ++ List.foldl (fun acc c => acc ++ escapeJsonChar c) "" l := by
  induction l generalizing a with
  | nil => simp
  | cons c t ih =>
    simp only [List.foldl_cons]
    rw [ih (a ++ escapeJsonChar c), ih ("" ++ escapeJsonChar c)]
    simp [String.append_assoc]

/-- A character the JSON escape leaves alone is emitted verbatim, so a
replicated run of it escapes to itself. -/
theorem escapeJson_replicate (n : Nat) (c : Char)
    (hc : escapeJsonChar c = String.mk [c]) :
    escapeJson (String.mk (List.replicate n c)) = String.mk (List.replicate n c) := by
  induction n with
  | zero => rfl
  | succ m ih =>
    show List.foldl (fun acc c => acc ++ escapeJsonChar c) ""
      (List.replicate (m + 1) c) = _
    rw [show List.replicate (m + 1) c = c :: List.replicate m c from rfl,
      List.foldl_cons, escapeJson_foldl]
    unfold escapeJson at ih
    rw [ih, hc]
    rfl

/-- The serialized under-cap properties occupy exactly 1999 bytes. -/
theorem byteCount_underCap : byteCount (jsonStringify underCapProps) = 1999 := by
  have h1 : jsonStringify underCapProps =
      "\x7b" ++ ("\"" ++ escapeJson "kaaa" ++ "\":" ++
        ("\"" ++ escapeJson (String.mk (List.replicate 497 bigChar)) ++ "\"")) ++ "\x7d" := rfl
  rw [h1, escapeJson_replicate 497 bigChar (by decide)]
  have h2 : escapeJson "kaaa" = "kaaa" := by decide
  rw [h2]
  simp only [byteCount_append, byteCount_replicate]
  decide

/-- The serialized over-cap properties occupy 2003 bytes. -/
theorem byteCount_overCap : byteCount (jsonStringify overCapProps) = 2003 := by
  have h1 : jsonStringify overCapProps =
      "\x7b" ++ ("\"" ++ escapeJson "kaaa" ++ "\":" ++
        ("\"" ++ escapeJson (String.mk (List.replicate 498 bigChar)) ++ "\"")) ++ "\x7d" := rfl
  rw [h1, escapeJson_replicate 498 bigChar (by decide)]
  have h2 : escapeJson "kaaa" = "kaaa" := by decide
  rw [h2]
  simp only [byteCount_append, byteCount_replicate]
  decide

/-- Witness for C7 at the concrete configs: over the cap the read throws the
size error; one byte under the cap the read still fails (stack overflow at
the bottom of the self-recursion). -/
theorem c7_properties_byte_cap_witness :
    KinveyRequestConfig.headersGet 1 overCapCfg =
      .error (.err (propsTooLargeMsg (byteCount (jsonStringify overCapCfg.configProperties)))) ∧
    isOkB (KinveyRequestConfig.headersGet 0 underCapCfg) = false :=
  c7_properties_byte_cap 0 overCapCfg underCapCfg
    (by rw [show overCapCfg.configProperties = overCapProps from rfl, byteCount_overCap]; decide)
    (by rw [show underCapCfg.configProperties = underCapProps from rfl, byteCount_underCap]; decide)

/-- C8: with `noCache` false, the `url` getter returns the stored URL with
the percent-encoded query string appended when a non-empty query object is
present, and the stored URL unchanged otherwise; the getter performs no
assignment, so the stored `configUrl` is untouched by reads.  The last
conjunct exhibits the full composition order on a cache-busting read: raw
URL, then the cache-bust parameter, then the query string. -/
theorem c8_url_composition (c : KinveyRequestConfig) (rand : String)
    (hnc : c.configNoCache = false) :
    (c.query.getD [] = [] → KinveyRequestConfig.urlGet c rand = c.configUrl) ∧
    (∀ ps, c.query = some ps → ps ≠ [] →
      KinveyRequestConfig.urlGet c rand = appendQuery c.configUrl (qsStringify ps)) ∧
    (c.configUrl = "https://x/y" → c.query = some [("a", "1")] →
      KinveyRequestConfig.urlGet c rand = "https://x/y?a=1") ∧
    KinveyRequestConfig.urlGet { sampleKCfg with configNoCache := true } "r4nd0m" =
      "https://x/y?_=r4nd0m&a=1" := by
  have hmain : ∀ ps, c.query = some ps → ps ≠ [] →
      KinveyRequestConfig.urlGet c rand = appendQuery c.configUrl (qsStringify ps) := by
    intro ps hps hne
    simp [KinveyRequestConfig.urlGet, RequestConfig.urlGet, hnc, hps, hne]
  refine ⟨?_, hmain, ?_, by decide⟩
  · intro hq
    simp [KinveyRequestConfig.urlGet, RequestConfig.urlGet, hnc, hq]
  · intro hu hq
    rw [hmain [("a", "1")] hq (by decide), hu]
    decide

/-- Witness for C8: the sample config (noCache false, base URL
`https://x/y`, query object `a=1`) reads back `https://x/y?a=1`. -/
theorem c8_url_composition_witness :
    KinveyRequestConfig.urlGet sampleKCfg "r4nd0m" = "https://x/y?a=1" :=
  (c8_url_composition sampleKCfg "r4nd0m" rfl).2.2.1 rfl rfl

/-- C9: a fresh `Request` is idle; `execute()` flips the idle request to
executing and throws the reentrancy error on an already-executing one; and
no operation the class exposes ever turns the `executing` flag back off. -/
theorem c9_execute_lifecycle (r : Request) (cfg : RequestConfig) :
    (Request.new cfg).executing = false ∧
    (r.executing = false → Request.execute r = .ok { r with executing := true }) ∧
    (r.executing = true → Request.execute r = .error (.err reentrancyMsg)) ∧
    (∀ op rr, r.executing = true → Request.applyOp op r = .ok rr →
      rr.executing = true) := by
  refine ⟨rfl, ?_, ?_, ?_⟩
  · intro h
    simp [Request.execute, Request.isExecuting, h]
  · intro h
    simp [Request.execute, Request.isExecuting, h]
  · intro op rr h hap
    cases op with
    | setConfig c =>
      simp only [Request.applyOp, Except.ok.injEq] at hap
      rw [← hap]
      exact h
    | setMethod m =>
      cases hm : RequestConfig.methodSet r.requestConfig m with
      | ok cfg2 =>
        simp only [Request.applyOp, hm, Except.map, Except.ok.injEq] at hap
        rw [← hap]
        exact h
      | error e =>
        simp [Request.applyOp, hm, Except.map] at hap
    | setHeaders hh =>
      simp only [Request.applyOp, Except.ok.injEq] at hap
      rw [← hap]
      exact h
    | setUrl u =>
      simp only [Request.applyOp, Except.ok.injEq] at hap
      rw [← hap]
      exact h
    | setBody b =>
      simp only [Request.applyOp, Except.ok.injEq] at hap
      rw [← hap]
      exact h
    | setData b =>
      simp only [Request.applyOp, Except.ok.injEq] at hap
      rw [← hap]
      exact h
    | execute =>
      simp [Request.applyOp, Request.execute, Request.isExecuting, h] at hap
    | cancel =>
      simp [Request.applyOp] at hap

/-- The sample idle request. -/
def idleRequest : Request := Request.new sampleBase

/-- The sample request after its one allowed `execute()`. -/
def executingRequest : Request := { idleRequest with executing := true }

/-- Witness for C9: the first `execute()` succeeds and flips the flag, the
second throws the reentrancy error. -/
theorem c9_execute_lifecycle_witness :
    Request.execute idleRequest = .ok executingRequest ∧
    Request.execute executingRequest = .error (.err reentrancyMsg) :=
  ⟨(c9_execute_lifecycle idleRequest sampleBase).2.1 rfl,
   (c9_execute_lifecycle executingRequest sampleBase).2.2.1 rfl⟩

/-- Counterexample for C3: the claim (all four operations case-insensitive,
at most one stored entry per case-insensitive name, and set-then-get across
case always returning the new value) is false: `set` stores under the exact
given name, so after `set("foo","a")`, a `set("FOO","b")` adds a second
entry and `get("foo")` still returns the older `"a"`. -/
theorem c3_case_insensitive_counterexample :
    ¬ (∀ (h hset : Headers) (n1 n2 : String) (v : JVal),
        jsToLower n1 = jsToLower n2 → Headers.set h n1 v = .ok hset →
        Headers.get hset n2 = some (Headers.storedOf v)) := by
  intro H
  have h2 := H ⟨[("foo", "a")]⟩ ⟨[("foo", "a"), ("FOO", "b")]⟩ "FOO" "foo" (.str "b")
    (by decide) rfl
  exact absurd h2 (by decide)

/-- C3 amended: `get` and `has` are case-insensitive (first stored entry in
insertion order wins), `remove` deletes only the exact-case key (every entry
under a different exact name survives), and `set` stores under the exact
given name — so set-then-get across case variants returns the new value
provided no case variant of the name was already stored. -/
theorem c3_header_case_amended (h : Headers) (n1 n2 : String) (v : JVal)
    (hc : jsToLower n1 = jsToLower n2) (hn1 : n1 ≠ "") (hn2 : n2 ≠ "") :
    (Headers.get h n1 = Headers.get h n2) ∧
    (Headers.has h n1 = Headers.has h n2) ∧
    (∀ p ∈ h.headers, p.1 ≠ n1 → p ∈ (Headers.remove h n1).headers) ∧
    (∀ hs, (∀ p ∈ h.headers, jsToLower p.1 ≠ jsToLower n1) →
      Headers.set h n1 v = .ok hs →
      Headers.get hs n2 = some (Headers.storedOf v)) := by
  have hget : Headers.get h n1 = Headers.get h n2 := by
    unfold Headers.get
    rw [if_neg hn1, if_neg hn2, hc]
  refine ⟨hget, ?_, ?_, ?_⟩
  · unfold Headers.has
    rw [hget]
  · intro p hp hne
    unfold Headers.remove
    rw [if_neg hn1]
    simp only [objDelete, List.mem_filter]
    exact ⟨hp, by simp [hne]⟩
  · intro hs hnv hset
    have hv : v.truthy = true := by
      by_contra hvf
      have hbad : Headers.set h n1 v =
          .error (.err "A name and value must be provided to set a header.") := by
        unfold Headers.set
        rw [if_pos (Or.inr (by simpa using hvf))]
      rw [hbad] at hset
      exact absurd hset (by simp)
    rw [headersSetOk h n1 v hn1 hv] at hset
    have hhs : hs = ⟨objSet h.headers n1 (Headers.storedOf v)⟩ := by
      cases hset
      rfl
    subst hhs
    have hany : (h.headers.any (fun p => p.1 = n1)) = false := by
      simp only [List.any_eq_false, decide_eq_true_eq]
      intro p hp hpeq
      exact hnv p hp (by rw [hpeq])
    unfold Headers.get
    rw [if_neg hn2]
    unfold objSet
    rw [hany]
    simp only [Bool.false_eq_true, if_false]
    rw [List.find?_append]
    have hleft : h.headers.find? (fun p => jsToLower p.1 == jsToLower n2) = none := by
      rw [List.find?_eq_none]
      intro p hp
      simp only [beq_iff_eq]
      rw [← hc]
      exact hnv p hp
    rw [hleft]
    simp [List.find?, hc]

/-- Witness for C3 amended, at names `FOO`/`foo` over a map holding only an
unrelated entry. -/
theorem c3_header_case_amended_witness :
    Headers.get ⟨[("other", "x")]⟩ "FOO" = Headers.get ⟨[("other", "x")]⟩ "foo" ∧
    Headers.get ⟨[("other", "x"), ("FOO", "b")]⟩ "foo" = some "b" :=
  ⟨(c3_header_case_amended ⟨[("other", "x")]⟩ "FOO" "foo" (.str "b")
      (by decide) (by decide) (by decide)).1,
   (c3_header_case_amended ⟨[("other", "x")]⟩ "FOO" "foo" (.str "b")
      (by decide) (by decide) (by decide)).2.2.2
     ⟨[("other", "x"), ("FOO", "b")]⟩ (by decide) rfl⟩

/-- A string built from a nonempty character list is nonempty. -/
theorem string_mk_ne_empty (c : Char) (l : List Char) : String.mk (c :: l) ≠ "" :=
  fun h => List.cons_ne_nil c l (congrArg String.data h)

/-- A string append whose left part is nonempty is nonempty. -/
theorem append_ne_empty_left (s t : String) (hs : s ≠ "") : s ++ t ≠ "" := by
  intro h
  apply hs
  have h2 := congrArg String.data h
  rw [String.data_append] at h2
  exact String.ext (List.append_eq_nil.mp h2).1

/-- The digit accumulator never loses characters. -/
theorem natStrAux_ne_nil (f : Nat) :
    ∀ (n : Nat) (acc : List Char), acc ≠ [] → natStrAux f n acc ≠ [] := by
  induction f with
  | zero =>
    intro n acc h
    simpa [natStrAux] using h
  | succ f ih =>
    intro n acc _
    simp only [natStrAux]
    split
    · exact List.cons_ne_nil _ _
    · exact ih _ _ (List.cons_ne_nil _ _)

/-- Decimal renderings of naturals are nonempty. -/
theorem natStr_ne_empty (n : Nat) : natStr n ≠ "" := by
  unfold natStr
  intro h
  have hne : natStrAux (n + 1) n [] ≠ [] := by
    simp only [natStrAux]
    split
    · exact List.cons_ne_nil _ _
    · exact natStrAux_ne_nil _ _ _ (List.cons_ne_nil _ _)
  exact hne (congrArg String.data h)

/-- Decimal renderings of integers are nonempty. -/
theorem intToString_ne_empty (n : Int) : intToString n ≠ "" := by
  cases n with
  | ofNat m => exact natStr_ne_empty m
  | negSucc m => exact append_ne_empty_left _ _ (by decide)

/-- Every JSON serialization is a nonempty string. -/
theorem jsonStringify_ne_empty (v : JVal) : jsonStringify v ≠ "" := by
  cases v with
  | null => decide
  | bool b => cases b <;> decide
  | num n => exact intToString_ne_empty n
  | str s => exact append_ne_empty_left _ _ (append_ne_empty_left _ _ (by decide))
  | arr xs => exact append_ne_empty_left _ _ (append_ne_empty_left _ _ (by decide))
  | obj ps => exact append_ne_empty_left _ _ (append_ne_empty_left _ _ (by decide))

/-- The string stored for a truthy value is nonempty. -/
theorem storedOf_ne_empty (v : JVal) (hv : v.truthy = true) :
    Headers.storedOf v ≠ "" := by
  cases v with
  | str s => simpa [Headers.storedOf, JVal.truthy] using hv
  | null => exact jsonStringify_ne_empty .null
  | bool b => exact jsonStringify_ne_empty (.bool b)
  | num n => exact jsonStringify_ne_empty (.num n)
  | arr xs => exact jsonStringify_ne_empty (.arr xs)
  | obj ps => exact jsonStringify_ne_empty (.obj ps)

/-- Well-formedness of a header map: every stored value is a nonempty
string. -/
def Headers.WF (h : Headers) : Prop := ∀ p ∈ h.headers, p.2 ≠ ""

/-- `objSet` with a nonempty value preserves well-formedness. -/
theorem objSet_wf (l : List (String × String)) (k val : String)
    (hw : ∀ p ∈ l, p.2 ≠ "") (hval : val ≠ "") :
    ∀ p ∈ objSet l k val, p.2 ≠ "" := by
  intro p hp
  unfold objSet at hp
  split at hp
  · obtain ⟨q, hq, hfq⟩ := List.mem_map.mp hp
    by_cases hqk : q.1 = k
    · rw [if_pos hqk] at hfq
      rw [← hfq]
      exact hval
    · rw [if_neg hqk] at hfq
      rw [← hfq]
      exact hw q hq
  · rcases List.mem_append.mp hp with hmem | hmem
    · exact hw p hmem
    · rw [List.mem_singleton.mp hmem]
      exact hval

/-- Inversion of a successful `Headers.set`. -/
theorem headersSetOkInv (h hset : Headers) (n : String) (v : JVal)
    (hs : Headers.set h n v = .ok hset) :
    n ≠ "" ∧ v.truthy = true ∧ hset = ⟨objSet h.headers n (Headers.storedOf v)⟩ := by
  by_cases hg : (n = "" ∨ v.truthy = false)
  · unfold Headers.set at hs
    rw [if_pos hg] at hs
    exact absurd hs (by simp)
  · push_neg at hg
    refine ⟨hg.1, by simpa using hg.2, ?_⟩
    unfold Headers.set at hs
    rw [if_neg ?_] at hs
    · cases hs
      rfl
    · rintro (h1 | h2)
      · exact hg.1 h1
      · rw [h2] at hg
        exact hg.2 rfl

/-- Whether a value is a JavaScript string. -/
def JVal.isStr : JVal → Bool
  | .str _ => true
  | _ => false

/-- C10: `set` rejects falsy names and values and stores the JSON
serialization of non-string values; every map reachable through `set` keeps
only nonempty string values, and on such maps `has(n)` is true exactly when
`get(n)` is defined. -/
theorem c10_stored_values_invariant (h hset : Headers) (n : String) (v : JVal)
    (hw : Headers.WF h) :
    ((n = "" ∨ v.truthy = false) → Headers.set h n v =
      .error (.err "A name and value must be provided to set a header.")) ∧
    (v.isStr = false → Headers.set h n v = .ok hset →
      hset.headers = objSet h.headers n (jsonStringify v)) ∧
    (Headers.set h n v = .ok hset → Headers.WF hset) ∧
    (Headers.has h n = (Headers.get h n).isSome) := by
  refine ⟨?_, ?_, ?_, ?_⟩
  · intro hg
    unfold Headers.set
    rw [if_pos hg]
  · intro hstr hs
    obtain ⟨hn, hv, heq⟩ := headersSetOkInv h hset n v hs
    rw [heq]
    have : Headers.storedOf v = jsonStringify v := by
      cases v with
      | str s => simp [JVal.isStr] at hstr
      | null => rfl
      | bool b => rfl
      | num m => rfl
      | arr xs => rfl
      | obj ps => rfl
    rw [this]
  · intro hs
    obtain ⟨hn, hv, heq⟩ := headersSetOkInv h hset n v hs
    rw [heq]
    exact objSet_wf h.headers n (Headers.storedOf v) hw (storedOf_ne_empty v hv)
  · unfold Headers.has
    cases hg : Headers.get h n with
    | none => rfl
    | some s =>
      have hmem : ∃ p ∈ h.headers, p.2 = s := by
        unfold Headers.get at hg
        by_cases hn : n = ""
        · rw [if_pos hn] at hg
          exact absurd hg (by simp)
        · rw [if_neg hn] at hg
          obtain ⟨p, hfind, hp2⟩ := Option.map_eq_some'.mp hg
          exact ⟨p, List.mem_of_find?_eq_some hfind, hp2⟩
      obtain ⟨p, hp, hp2⟩ := hmem
      have hne : s ≠ "" := hp2 ▸ hw p hp
      simp [hne]

/-- A well-formed sample map holding the default accept header. -/
def wfSample : Headers := ⟨[("accept", "application/json; charset=utf-8")]⟩

/-- Witness for C10: a non-string set stores its JSON text and keeps the map
well-formed, and `has`/`get` agree through a case-variant lookup. -/
theorem c10_stored_values_invariant_witness :
    Headers.WF ⟨[("accept", "application/json; charset=utf-8"), ("X-Test", "5")]⟩ ∧
    Headers.has wfSample "ACCEPT" = (Headers.get wfSample "ACCEPT").isSome :=
  ⟨(c10_stored_values_invariant wfSample
      ⟨[("accept", "application/json; charset=utf-8"), ("X-Test", "5")]⟩
      "X-Test" (.num 5) (by unfold Headers.WF wfSample; decide)).2.2.1 rfl,
   (c10_stored_values_invariant wfSample ⟨[]⟩ "ACCEPT" (.num 5)
      (by unfold Headers.WF wfSample; decide)).2.2.2⟩
